import Mathlib

/-!
A shallow embedding of the node-drop/airtable adapter's core:
the HTTP request executor `makeAirtableRequest` (retry/backoff engine,
src/nodes/airtable.node.js), the polling trigger's change-detection loop
(src/nodes/airtable-trigger.node.js, re-exported through src/index.js),
and the template substitution helper `resolveValue`.

HTTP attempts are modelled by an environment `responses : Nat → Outcome α`
giving the outcome of each attempt index; `axios` resolving with a 2xx
response is `Outcome.ok body`, and a rejection is `Outcome.fail e` where
`e.status` is `error.response?.status` (`none` for transport-level failures
such as connection refused or timeout, which carry no HTTP response) and
`e.detail` is `error.response.data?.error?.message`.
-/

/-- The observable content of an axios rejection `error`:
`status` is `error.response?.status` (none when there is no HTTP response),
`message` is `error.message`, `detail` is `error.response.data?.error?.message`. -/
structure ErrInfo where
  status : Option Nat
  message : String
  detail : Option String
deriving DecidableEq

/-- Outcome of one HTTP attempt: `ok body` when axios resolves (2xx) with the
decoded JSON body, `fail e` when it rejects. -/
inductive Outcome (α : Type) where
  | ok (body : α)
  | fail (e : ErrInfo)
deriving DecidableEq

/-- Whether an attempt outcome is a rejection whose HTTP status is 429. -/
def is429 {α : Type} : Outcome α → Bool
  | .ok _ => false
  | .fail e => e.status = some 429

/-- The error-classification tail of `makeAirtableRequest`
(src/nodes/airtable.node.js lines 742-752): the thrown message as a function
of the last attempt's error. -/
def classify (e : ErrInfo) : String :=
  if e.status = some 401 then
    "Invalid Airtable credentials. Please check your token."
  else if e.status = some 403 then
    "Access forbidden. Check your token permissions."
  else if e.status = some 404 then
    "Resource not found. Check your base ID, table name, or record ID."
  else if e.status = some 422 then
    "Invalid request: " ++ (e.detail.getD "Unknown error")
  else
    "Airtable API error: " ++ e.message

/-- One run of the retry loop of `makeAirtableRequest`
(src/nodes/airtable.node.js lines 705-740), starting at attempt index
`attempt` with `fuel` further attempts allowed after this one (the loop
invariant is `attempt + fuel = maxRetries`).  Returns the total number of
attempts performed (final attempt index + 1), the list of backoff delays
slept (in order), and either the returned body or the `lastError` left when
the loop exits.  A 429 rejection with `attempt < maxRetries` (`fuel > 0`)
sleeps `retryDelay * 2 ^ attempt` and retries; every other rejection, and a
429 on the final allowed attempt, ends the loop. -/
def runFrom {α : Type} (responses : Nat → Outcome α) (retryDelay : Nat) :
    Nat → Nat → Nat × List Nat × (α ⊕ ErrInfo)
  | 0, attempt =>
    match responses attempt with
    | .ok body => (attempt + 1, [], Sum.inl body)
    | .fail e => (attempt + 1, [], Sum.inr e)
  | fuel + 1, attempt =>
    match responses attempt with
    | .ok body => (attempt + 1, [], Sum.inl body)
    | .fail e =>
      if e.status = some 429 then
        let r := runFrom responses retryDelay fuel (attempt + 1)
        (r.1, retryDelay * 2 ^ attempt :: r.2.1, r.2.2)
      else
        (attempt + 1, [], Sum.inr e)

/-- The observable result of one call to `makeAirtableRequest`:
how many attempts were made, which backoff delays were slept, and either the
decoded JSON body (`Sum.inl`) or the classified error message thrown
(`Sum.inr`). -/
structure RunResult (α : Type) where
  attempts : Nat
  sleeps : List Nat
  result : α ⊕ String
deriving DecidableEq

/-- `makeAirtableRequest` (src/nodes/airtable.node.js lines 699-753), as the
run of the retry loop from attempt 0 followed by classification of the last
error when the loop did not return a body. -/
def makeAirtableRequest {α : Type} (responses : Nat → Outcome α)
    (maxRetries retryDelay : Nat) : RunResult α :=
  let r := runFrom responses retryDelay maxRetries 0
  { attempts := r.1, sleeps := r.2.1, result := Sum.map id classify r.2.2 }

/-- Airtable credentials as read by the executor; an absent field is the
empty string (both `""` and `undefined` are falsy for `||`). -/
structure Credentials where
  authenticationType : String
  accessToken : String
  apiKey : String
deriving DecidableEq

/-- `credentials.accessToken || credentials.apiKey`
(src/nodes/airtable.node.js line 700). -/
def tokenOf (c : Credentials) : String :=
  if c.accessToken ≠ "" then c.accessToken else c.apiKey

/-- The Authorization header built by `makeAirtableRequest`
(src/nodes/airtable.node.js lines 701-703). -/
def authHeaderOf (c : Credentials) : String :=
  if c.authenticationType = "pat" then "Bearer " ++ tokenOf c else tokenOf c

/-- The backoff delays slept by `k` consecutive retried 429 rejections
beginning at attempt index `start`: `retryDelay * 2 ^ start`, then
`retryDelay * 2 ^ (start + 1)`, and so on. -/
def delays429 (retryDelay : Nat) : Nat → Nat → List Nat
  | _, 0 => []
  | start, k + 1 => retryDelay * 2 ^ start :: delays429 retryDelay (start + 1) k

/-- An Airtable record as seen by the trigger's poll: `id`, `fields` (opaque
to the loop, kept as a string), and `createdTime`, modelled as an integer
timestamp (the numeric value `new Date(record.createdTime)` compares by). -/
structure AirRecord where
  id : String
  fields : String
  createdTime : Int
deriving DecidableEq

/-- The shape emitted downstream for one new record
(the `json` projection built in src/nodes/airtable-trigger.node.js
lines 174-180). -/
structure Emitted where
  recordId : String
  fields : String
  createdTime : Int
deriving DecidableEq

/-- The projection of an Airtable record to the emitted shape. -/
def projectRecord (r : AirRecord) : Emitted :=
  { recordId := r.id, fields := r.fields, createdTime := r.createdTime }

/-- One poll cycle (`pollRecords`, src/nodes/airtable-trigger.node.js lines
142-188, together with its caller's emit-only-nonempty check at lines
195-198).  `lastCheck` is the watermark, `resp` is the HTTP outcome of the
list request (`none` = the request threw), `now` is the time at which the
successful cycle reassigns `lastCheck = new Date()`.  Returns the new
watermark and the batch emitted (`none` = nothing emitted). -/
def pollRecords (lastCheck : Int) (resp : Option (List AirRecord)) (now : Int) :
    Int × Option (List Emitted) :=
  match resp with
  | none => (lastCheck, none)
  | some records =>
    let newRecords := records.filter (fun r => lastCheck < r.createdTime)
    (now,
      if newRecords.length > 0 then some (newRecords.map projectRecord)
      else none)

/-- The interval handed to `setInterval`
(src/nodes/airtable-trigger.node.js line 191):
`Math.max(pollingInterval * 1000, 30000)`. -/
def pollInterval (pollingIntervalSeconds : Nat) : Nat :=
  max (pollingIntervalSeconds * 1000) 30000

/-- The state owned by one running trigger instance: whether its interval
timer is still armed (`clearInterval` has not run) and the watermark. -/
structure TriggerState where
  timerActive : Bool
  lastCheck : Int
deriving DecidableEq

/-- An event in the life of a running trigger: a timer tick whose poll cycle
observes HTTP outcome `resp` at completion time `now`, or the invocation of
the cancellation handle returned by `trigger`
(src/nodes/airtable-trigger.node.js lines 215-217). -/
inductive TriggerEvent where
  | tick (resp : Option (List AirRecord)) (now : Int)
  | cancel
deriving DecidableEq

/-- One step of the trigger's loop.  A tick runs a poll cycle only while the
timer is armed (`clearInterval` prevents any further callback from running,
even one already due); the cycle's failure is logged and swallowed by the
callback (lines 199-201), so the state keeps `timerActive = true`.  `cancel`
clears the timer and emits nothing. -/
def triggerStep (s : TriggerState) (ev : TriggerEvent) :
    TriggerState × Option (List Emitted) :=
  match ev with
  | .tick resp now =>
    if s.timerActive then
      let r := pollRecords s.lastCheck resp now
      ({ s with lastCheck := r.1 }, r.2)
    else
      (s, none)
  | .cancel => ({ s with timerActive := false }, none)

/-- Run a sequence of trigger events, collecting every batch emitted. -/
def triggerRun (s : TriggerState) : List TriggerEvent → TriggerState × List (List Emitted)
  | [] => (s, [])
  | ev :: rest =>
    let r := triggerStep s ev
    let t := triggerRun r.1 rest
    (t.1, (match r.2 with | some b => [b] | none => []) ++ t.2)

/-- The opening-brace character (written by code point to keep braces out of
string literals). -/
def lbrace : Char := Char.ofNat 123

/-- The closing-brace character. -/
def rbrace : Char := Char.ofNat 125

/-- A JavaScript regex word character, `\w` = `[A-Za-z0-9_]`. -/
def isWordChar (c : Char) : Bool := c.isAlphanum || c == '_'

/-- A JavaScript value as far as `resolveValue` can observe it: the template
callback evaluates `context[key] || ""` and the replacement coerces the
result to a string. -/
inductive JSVal where
  | str (s : String)
  | num (n : Int)
  | bool (b : Bool)
  | null
deriving DecidableEq

/-- Whether a `resolveValue` input is a string (`typeof value === "string"`). -/
def isStringV : JSVal → Bool
  | .str _ => true
  | _ => false

/-- JavaScript truthiness of a value (`undefined` is represented by the key
being absent from the context). -/
def truthyV : JSVal → Bool
  | .str s => s ≠ ""
  | .num n => n ≠ 0
  | .bool b => b
  | .null => false

/-- JavaScript string coercion of a value, as `String.prototype.replace`
applies it to the callback's return value. -/
def jsString : JSVal → String
  | .str s => s
  | .num n => toString n
  | .bool b => if b then "true" else "false"
  | .null => "null"

/-- The replacement text for a matched key: `context[key] || ""` coerced to a
string — the context's value when the key is present and truthy, the empty
string otherwise. -/
def substValue (ctx : String → Option JSVal) (key : String) : String :=
  match ctx key with
  | none => ""
  | some v => if truthyV v then jsString v else ""

/-- Try to match the regex `\x7b\x7bjson\.(\w+)\x7d\x7d` at the head of the
character list: two opening braces, the literal `json.`, a nonempty maximal
run of word characters, and two closing braces.  Returns the captured key
and the remainder after the match. -/
def tryMatch (cs : List Char) : Option (List Char × List Char) :=
  match cs with
  | a :: b :: c1 :: c2 :: c3 :: c4 :: c5 :: rest =>
    if a == lbrace && b == lbrace && c1 == 'j' && c2 == 's' && c3 == 'o' &&
        c4 == 'n' && c5 == '.' && !(rest.takeWhile isWordChar).isEmpty &&
        (rest.dropWhile isWordChar).take 2 == [rbrace, rbrace] then
      some (rest.takeWhile isWordChar, (rest.dropWhile isWordChar).drop 2)
    else none
  | _ => none

/-- Dropping a while-prefix never lengthens a list. -/
theorem dropWhile_length_le (p : Char → Bool) :
    ∀ l : List Char, (l.dropWhile p).length ≤ l.length := by
  intro l
  induction l with
  | nil => simp [List.dropWhile]
  | cons c rest ih =>
    by_cases hp : p c = true
    · simp only [List.dropWhile, hp]
      exact Nat.le_succ_of_le ih
    · simp only [List.dropWhile, hp]
      simp

/-- A successful match consumes at least one character. -/
theorem tryMatch_length {cs : List Char} {w r : List Char}
    (h : tryMatch cs = some (w, r)) : r.length < cs.length := by
  rcases cs with _ | ⟨a, _ | ⟨b, _ | ⟨c1, _ | ⟨c2, _ | ⟨c3, _ | ⟨c4, _ | ⟨c5, rest⟩⟩⟩⟩⟩⟩⟩
  all_goals try exact Option.noConfusion h
  simp only [tryMatch] at h
  split at h
  · have hr : r = (rest.dropWhile isWordChar).drop 2 := by
      simpa using (congrArg Prod.snd (Option.some.inj h)).symm
    have hlen : (rest.dropWhile isWordChar).length ≤ rest.length :=
      dropWhile_length_le isWordChar rest
    have hdrop : ((rest.dropWhile isWordChar).drop 2).length ≤
        (rest.dropWhile isWordChar).length := by
      rw [List.length_drop]
      omega
    subst hr
    simp only [List.length_cons]
    omega
  · exact Option.noConfusion h

/-- The global left-to-right scan performed by
`value.replace(re, (match, key) => context[key] || "")`
(src/nodes/airtable.node.js line 758): at each position, replace a match of
the template shape and continue after it, otherwise keep the character and
move one position right. -/
def substAux (ctx : String → Option JSVal) : List Char → List Char
  | [] => []
  | c :: rest =>
    match h : tryMatch (c :: rest) with
    | some (w, r) => (substValue ctx (String.mk w)).data ++ substAux ctx r
    | none => c :: substAux ctx rest
termination_by cs => cs.length
decreasing_by
  · exact tryMatch_length h
  · simp

/-- Whether a string contains the substring of two consecutive opening
braces (`value.includes` of two opening braces). -/
def hasOpenBraces : List Char → Bool
  | a :: b :: rest => (a == lbrace && b == lbrace) || hasOpenBraces (b :: rest)
  | _ => false

/-- `resolveValue` (src/nodes/airtable.node.js lines 755-761): non-strings
and strings without two consecutive opening braces are returned unchanged;
otherwise every match of the template regex is replaced. -/
def resolveValue (value : JSVal) (ctx : String → Option JSVal) : JSVal :=
  match value with
  | .str s =>
    if hasOpenBraces s.data then .str (String.mk (substAux ctx s.data))
    else .str s
  | v => v

/-- The character-list form of one template occurrence for a given key. -/
def templateChars (key : List Char) : List Char :=
  lbrace :: lbrace :: 'j' :: 's' :: 'o' :: 'n' :: '.' :: (key ++ [rbrace, rbrace])

/-- A response environment answering 429 on every attempt. -/
def resp429 : Nat → Outcome Nat :=
  fun _ => .fail ⟨some 429, "rate limited", none⟩

/-- A response environment answering 429 twice, then a 2xx success. -/
def respOkAfter2 : Nat → Outcome Nat :=
  fun i => if i < 2 then .fail ⟨some 429, "rate limited", none⟩ else .ok 7

/-- A response environment answering 404 on every attempt. -/
def resp404 : Nat → Outcome Nat :=
  fun _ => .fail ⟨some 404, "Request failed with status code 404", none⟩

/-- Sample poll response: records created at times 9, 10, 11 and 15, to be
partitioned against watermark 10. -/
def pollSample : List AirRecord :=
  [⟨"r1", "f1", 9⟩, ⟨"r2", "f2", 10⟩, ⟨"r3", "f3", 11⟩, ⟨"r4", "f4", 15⟩]

/-- Sample poll response containing only an already-seen record. -/
def pollOld : List AirRecord := [⟨"r1", "f1", 9⟩]

/-- Sample PAT credentials. -/
def patCreds : Credentials := ⟨"pat", "tok123", ""⟩

/-- Sample legacy API-key credentials (no access token populated). -/
def legacyCreds : Credentials := ⟨"apiKey", "", "key456"⟩

/-- Sample template context: `name` is a truthy string, `count` is the falsy
number 0, every other key is absent. -/
def ctxEx : String → Option JSVal := fun k =>
  if k = "name" then some (.str "Bob")
  else if k = "count" then some (.num 0)
  else none

/-- `delays429` lists one delay per retried attempt. -/
theorem delays429_length (retryDelay : Nat) :
    ∀ start k, (delays429 retryDelay start k).length = k := by
  intro start k
  induction k generalizing start with
  | zero => rfl
  | succ k ih => simp [delays429, ih]

/-- A 429-flagged outcome is a rejection with HTTP status 429. -/
theorem is429_fail {α : Type} {o : Outcome α} (h : is429 o = true) :
    ∃ e, o = .fail e ∧ e.status = some 429 := by
  cases o with
  | ok b => simp [is429] at h
  | fail e => exact ⟨e, rfl, by simpa [is429] using h⟩

/-- A successful attempt returns its body at once, whatever fuel remains. -/
theorem runFrom_ok {α : Type} {responses : Nat → Outcome α} {d fuel a : Nat}
    {b : α} (hres : responses a = .ok b) :
    runFrom responses d fuel a = (a + 1, [], Sum.inl b) := by
  cases fuel <;> simp [runFrom, hres]

/-- With no retries left, any rejection ends the loop with that error. -/
theorem runFrom_zero_fail {α : Type} {responses : Nat → Outcome α} {d a : Nat}
    {e : ErrInfo} (hres : responses a = .fail e) :
    runFrom responses d 0 a = (a + 1, [], Sum.inr e) := by
  simp [runFrom, hres]

/-- A non-429 rejection ends the loop at once, whatever fuel remains. -/
theorem runFrom_fail_non429 {α : Type} {responses : Nat → Outcome α}
    {d fuel a : Nat} {e : ErrInfo} (hres : responses a = .fail e)
    (hne : e.status ≠ some 429) :
    runFrom responses d fuel a = (a + 1, [], Sum.inr e) := by
  cases fuel <;> simp [runFrom, hres, hne]

/-- Running through `k` consecutive retried 429 rejections sleeps exactly the
`delays429` backoffs and continues the loop `k` attempts later. -/
theorem runFrom_skip429 {α : Type} (responses : Nat → Outcome α) (d : Nat) :
    ∀ k fuel a, (∀ i, i < k → is429 (responses (a + i)) = true) → k ≤ fuel →
    runFrom responses d fuel a =
      ((runFrom responses d (fuel - k) (a + k)).1,
       delays429 d a k ++ (runFrom responses d (fuel - k) (a + k)).2.1,
       (runFrom responses d (fuel - k) (a + k)).2.2) := by
  intro k
  induction k with
  | zero => intro fuel a _ _; simp [delays429]
  | succ k ih =>
    intro fuel a h hk
    obtain ⟨e, he, hst⟩ := is429_fail (h 0 (Nat.succ_pos k))
    rw [Nat.add_zero] at he
    cases fuel with
    | zero => omega
    | succ f =>
      have h' : ∀ i, i < k → is429 (responses ((a + 1) + i)) = true := by
        intro i hi
        have hx := h (i + 1) (by omega)
        have harith : a + (i + 1) = (a + 1) + i := by omega
        rwa [harith] at hx
      have ihh := ih f (a + 1) h' (by omega)
      have harith2 : a + (k + 1) = (a + 1) + k := by omega
      have harith3 : f + 1 - (k + 1) = f - k := by omega
      simp only [runFrom, he, hst, if_pos, ihh, delays429, harith2, harith3,
        List.cons_append]

/-- The `j`-th backoff slept by a run starting at attempt `a` is
`d * 2 ^ (a + j)`: delays are attempt-indexed powers of two. -/
theorem runFrom_sleeps_getD {α : Type} (responses : Nat → Outcome α) (d : Nat) :
    ∀ fuel a j, j < (runFrom responses d fuel a).2.1.length →
    (runFrom responses d fuel a).2.1.getD j 0 = d * 2 ^ (a + j) := by
  intro fuel
  induction fuel with
  | zero =>
    intro a j hj
    cases hres : responses a <;> simp [runFrom, hres] at hj
  | succ f ih =>
    intro a j hj
    cases hres : responses a with
    | ok b => simp [runFrom, hres] at hj
    | fail e =>
      by_cases hst : e.status = some 429
      · cases j with
        | zero => simp [runFrom, hres, hst]
        | succ j =>
          have hj' : j < (runFrom responses d f (a + 1)).2.1.length := by
            have := hj
            simp only [runFrom, hres, hst, if_pos, List.length_cons] at this
            omega
          have hih := ih (a + 1) j hj'
          have harith : (a + 1) + j = a + (j + 1) := by omega
          rw [harith] at hih
          simpa [runFrom, hres, hst] using hih
      · simp [runFrom, hres, hst] at hj

/-- Total backoff bound: the sum of all delays slept plus `d * 2 ^ a` is at
most `d * 2 ^ (a + fuel)`. -/
theorem runFrom_sum_bound {α : Type} (responses : Nat → Outcome α) (d : Nat) :
    ∀ fuel a, (runFrom responses d fuel a).2.1.sum + d * 2 ^ a ≤
      d * 2 ^ (a + fuel) := by
  intro fuel
  induction fuel with
  | zero =>
    intro a
    cases hres : responses a <;> simp [runFrom, hres]
  | succ f ih =>
    intro a
    cases hres : responses a with
    | ok b =>
      simp only [runFrom, hres, List.sum_nil, Nat.zero_add]
      exact Nat.mul_le_mul_left _ (Nat.pow_le_pow_right (by norm_num) (by omega))
    | fail e =>
      by_cases hst : e.status = some 429
      · have hih := ih (a + 1)
        have hpow : d * 2 ^ (a + 1) = d * 2 ^ a + d * 2 ^ a := by
          rw [pow_succ]; ring
        have hexp : (a + 1) + f = a + (f + 1) := by omega
        rw [hexp] at hih
        simp only [runFrom, hres, hst, if_pos, List.sum_cons]
        linarith [hih, hpow]
      · rw [runFrom_fail_non429 hres hst]
        simp only [List.sum_nil, Nat.zero_add]
        exact Nat.mul_le_mul_left _ (Nat.pow_le_pow_right (by norm_num) (by omega))

/-- When the loop ends in an error, that error is the rejection of the last
attempt actually performed. -/
theorem runFrom_inr_lastFail {α : Type} (responses : Nat → Outcome α) (d : Nat) :
    ∀ fuel a e, (runFrom responses d fuel a).2.2 = Sum.inr e →
    responses ((runFrom responses d fuel a).1 - 1) = .fail e := by
  intro fuel
  induction fuel with
  | zero =>
    intro a e h
    cases hres : responses a with
    | ok b => rw [runFrom_ok hres] at h; exact Sum.noConfusion h
    | fail e' =>
      rw [runFrom_zero_fail hres] at h ⊢
      have : e' = e := by simpa using h
      simpa [this] using hres
  | succ f ih =>
    intro a e h
    cases hres : responses a with
    | ok b => rw [runFrom_ok hres] at h; exact Sum.noConfusion h
    | fail e' =>
      by_cases hst : e'.status = some 429
      · have hr : (runFrom responses d (f + 1) a).2.2 =
            (runFrom responses d f (a + 1)).2.2 := by
          simp [runFrom, hres, hst]
        have ha : (runFrom responses d (f + 1) a).1 =
            (runFrom responses d f (a + 1)).1 := by
          simp [runFrom, hres, hst]
        rw [hr] at h
        rw [ha]
        exact ih (a + 1) e h
      · rw [runFrom_fail_non429 hres hst] at h ⊢
        have : e' = e := by simpa using h
        simpa [this] using hres

/-- C1: for `maxRetries = n`, `n + 1` consecutive 429 rejections make exactly
`n + 1` attempts and raise the classified failure built from the exhausted
rate-limit error; a 2xx success on attempt `k ≤ n` (after 429s) returns the
decoded body immediately with exactly `k + 1` attempts and no further ones. -/
theorem makeAirtableRequest_attempts_spec {α : Type}
    (responses : Nat → Outcome α) (n d : Nat) :
    ((∀ i, i ≤ n → is429 (responses i) = true) →
      (makeAirtableRequest responses n d).attempts = n + 1 ∧
      ∀ e, responses n = .fail e →
        (makeAirtableRequest responses n d).result = Sum.inr (classify e)) ∧
    (∀ k body, k ≤ n → (∀ i, i < k → is429 (responses i) = true) →
      responses k = .ok body →
      (makeAirtableRequest responses n d).attempts = k + 1 ∧
      (makeAirtableRequest responses n d).result = Sum.inl body) := by
  constructor
  · intro h
    obtain ⟨e0, he0, _⟩ := is429_fail (h n le_rfl)
    have hskip := runFrom_skip429 responses d n n 0
      (fun i hi => by simpa using h i (by omega)) le_rfl
    rw [Nat.sub_self, Nat.zero_add, runFrom_zero_fail he0] at hskip
    constructor
    · simp [makeAirtableRequest, hskip]
    · intro e he
      rw [he] at he0
      have he' : e = e0 := Outcome.fail.inj he0
      subst he'
      simp [makeAirtableRequest, hskip, Sum.map]
  · intro k body hk h429 hok
    have hskip := runFrom_skip429 responses d k n 0
      (fun i hi => by simpa using h429 i hi) hk
    rw [Nat.zero_add, runFrom_ok hok] at hskip
    constructor
    · simp [makeAirtableRequest, hskip]
    · simp [makeAirtableRequest, hskip, Sum.map]

/-- C2: a non-429 rejection at attempt `j` — any other HTTP status, or a
transport failure carrying no status — ends the loop at exactly `j + 1`
attempts; the slept backoffs are exactly those of the `j` earlier retried
429s (none for the terminal failure), and the classified error is raised. -/
theorem makeAirtableRequest_non429_terminal {α : Type}
    (responses : Nat → Outcome α) (m d j : Nat) (e : ErrInfo)
    (hj : j ≤ m) (h429 : ∀ i, i < j → is429 (responses i) = true)
    (hfail : responses j = .fail e) (hne : e.status ≠ some 429) :
    (makeAirtableRequest responses m d).attempts = j + 1 ∧
    (makeAirtableRequest responses m d).sleeps = delays429 d 0 j ∧
    (makeAirtableRequest responses m d).sleeps.length = j ∧
    (makeAirtableRequest responses m d).result = Sum.inr (classify e) := by
  have hskip := runFrom_skip429 responses d j m 0
    (fun i hi => by simpa using h429 i hi) hj
  rw [Nat.zero_add, runFrom_fail_non429 hfail hne] at hskip
  refine ⟨?_, ?_, ?_, ?_⟩ <;>
    simp [makeAirtableRequest, hskip, delays429_length, Sum.map]

/-- C3: the backoff slept before retry attempt `i` (the `j = i - 1`-th sleep,
0-indexed) is `retryDelay * 2 ^ (i - 1)`, and the total time slept is at most
`retryDelay * (2 ^ maxRetries - 1)`. -/
theorem makeAirtableRequest_backoff_delays {α : Type}
    (responses : Nat → Outcome α) (m d : Nat) :
    (∀ j, j < (makeAirtableRequest responses m d).sleeps.length →
      (makeAirtableRequest responses m d).sleeps.getD j 0 = d * 2 ^ j) ∧
    (makeAirtableRequest responses m d).sleeps.sum ≤ d * (2 ^ m - 1) := by
  constructor
  · intro j hj
    have hg := runFrom_sleeps_getD responses d m 0 j
      (by simpa [makeAirtableRequest] using hj)
    simpa [makeAirtableRequest] using hg
  · have hb := runFrom_sum_bound responses d m 0
    simp only [pow_zero, Nat.mul_one, Nat.zero_add] at hb
    have h2 : (makeAirtableRequest responses m d).sleeps.sum + d ≤
        d * (2 ^ m - 1) + d := by
      have hpos : 0 < (2:ℕ) ^ m := pow_pos (by norm_num) m
      have heq : d * (2 ^ m - 1) + d = d * 2 ^ m := by
        have hsub : (2:ℕ) ^ m - 1 + 1 = 2 ^ m := by omega
        calc d * (2 ^ m - 1) + d = d * ((2 ^ m - 1) + 1) := by ring
          _ = d * 2 ^ m := by rw [hsub]
      rw [heq]
      simpa [makeAirtableRequest] using hb
    exact Nat.le_of_add_le_add_right h2

/-- C7: a run that fails surfaces exactly the last attempt's error, classified
by the status taxonomy (401 invalid credentials, 403 insufficient
permissions, 404 not found, 422 malformed request with the API's detail,
anything else — including exhausted 429 and transport failures — a generic
distinguishing message); the failure is a raised result, never swallowed. -/
theorem makeAirtableRequest_error_classification {α : Type}
    (responses : Nat → Outcome α) (m d : Nat) :
    (∀ msg, (makeAirtableRequest responses m d).result = Sum.inr msg →
      ∃ e, responses ((makeAirtableRequest responses m d).attempts - 1) =
          .fail e ∧ msg = classify e) ∧
    (∀ e, e.status = some 401 →
      classify e = "Invalid Airtable credentials. Please check your token.") ∧
    (∀ e, e.status = some 403 →
      classify e = "Access forbidden. Check your token permissions.") ∧
    (∀ e, e.status = some 404 →
      classify e = "Resource not found. Check your base ID, table name, or record ID.") ∧
    (∀ e det, e.status = some 422 → e.detail = some det →
      classify e = "Invalid request: " ++ det) ∧
    (∀ e, e.status = some 422 → e.detail = none →
      classify e = "Invalid request: Unknown error") ∧
    (∀ e, e.status ∉ ([some 401, some 403, some 404, some 422] :
        List (Option Nat)) →
      classify e = "Airtable API error: " ++ e.message) := by
  refine ⟨?_, ?_, ?_, ?_, ?_, ?_, ?_⟩
  · intro msg h
    cases hr : (runFrom responses d m 0).2.2 with
    | inl b =>
      exfalso
      simp [makeAirtableRequest, hr, Sum.map] at h
    | inr e =>
      have hmsg : msg = classify e := by
        simp [makeAirtableRequest, hr, Sum.map] at h
        exact h.symm
      refine ⟨e, ?_, hmsg⟩
      have := runFrom_inr_lastFail responses d m 0 e hr
      simpa [makeAirtableRequest] using this
  · intro e h; simp [classify, h]
  · intro e h; simp [classify, h]
  · intro e h; simp [classify, h]
  · intro e det h hdet; simp [classify, h, hdet]
  · intro e h hdet; simp [classify, h, hdet]
  · intro e h
    have h' : e.status ≠ some 401 ∧ e.status ≠ some 403 ∧
        e.status ≠ some 404 ∧ e.status ≠ some 422 := by simpa using h
    simp [classify, h'.1, h'.2.1, h'.2.2.1, h'.2.2.2]

/-- C8: the Authorization header is `Bearer <token>` exactly when
`authenticationType` is `"pat"` and the raw token otherwise, where the token
is `accessToken` when that field is non-empty and `apiKey` otherwise. -/
theorem authHeader_spec (c : Credentials) :
    (c.authenticationType = "pat" →
      authHeaderOf c = "Bearer " ++ tokenOf c) ∧
    (c.authenticationType ≠ "pat" → authHeaderOf c = tokenOf c) ∧
    (c.accessToken ≠ "" → tokenOf c = c.accessToken) ∧
    (c.accessToken = "" → tokenOf c = c.apiKey) := by
  refine ⟨?_, ?_, ?_, ?_⟩ <;> intro h <;> simp [authHeaderOf, tokenOf, h]

/-- C4: a successful poll cycle emits exactly the records whose `createdTime`
is strictly greater than the watermark, each projected to the emitted shape,
and emits nothing at all (no empty batch) when no record qualifies. -/
theorem pollRecords_partition (T now : Int) (records : List AirRecord) :
    ((pollRecords T (some records) now).2 = none ↔
      ∀ r ∈ records, r.createdTime ≤ T) ∧
    (∀ out, (pollRecords T (some records) now).2 = some out →
      out = (records.filter (fun r => T < r.createdTime)).map projectRecord) := by
  have hiff : records.filter (fun r => T < r.createdTime) = [] ↔
      ∀ r ∈ records, r.createdTime ≤ T := by
    rw [List.filter_eq_nil_iff]
    constructor
    · intro h r hr
      have := h r hr
      simpa using this
    · intro h r hr
      simpa using h r hr
  constructor
  · simp only [pollRecords]
    split
    · rename_i hlen
      constructor
      · intro hsome
        exact absurd hsome (by simp)
      · intro hall
        exfalso
        rw [hiff.mpr hall] at hlen
        simp at hlen
    · rename_i hlen
      have hnil : records.filter (fun r => T < r.createdTime) = [] := by
        rw [← List.length_eq_zero]
        omega
      exact ⟨fun _ => hiff.mp hnil, fun _ => rfl⟩
  · intro out hout
    simp only [pollRecords] at hout
    split at hout
    · exact (Option.some.inj hout).symm
    · exact Option.noConfusion hout

/-- C5: a failing poll cycle leaves the watermark unchanged and emits
nothing, so the next successful cycle partitions against the original
watermark; a successful cycle advances the watermark to its completion time
even with zero new records; and a failing tick leaves the timer running. -/
theorem pollRecords_failure_watermark (T now1 now2 : Int)
    (records : List AirRecord) :
    pollRecords T none now1 = (T, none) ∧
    pollRecords (pollRecords T none now1).1 (some records) now2 =
      pollRecords T (some records) now2 ∧
    (∀ recs : List AirRecord, (pollRecords T (some recs) now2).1 = now2) ∧
    triggerStep ⟨true, T⟩ (.tick none now1) = (⟨true, T⟩, none) := by
  refine ⟨rfl, ?_, ?_, ?_⟩
  · rfl
  · intro recs
    simp [pollRecords]
  · simp [triggerStep, pollRecords]

/-- C6: the interval handed to the scheduler is
`max(configuredSeconds * 1000, 30000)` — a hard 30-second floor applied at
schedule time; in particular 5 configured seconds give 30000 ms, sub-floor
settings are raised to 30000, and settings of 30 s or more pass through. -/
theorem pollInterval_floor :
    pollInterval 5 = 30000 ∧
    (∀ s, 30000 ≤ pollInterval s) ∧
    (∀ s, s < 30 → pollInterval s = 30000) ∧
    (∀ s, 30 ≤ s → pollInterval s = s * 1000) := by
  refine ⟨rfl, ?_, ?_, ?_⟩
  · intro s
    simp [pollInterval]
  · intro s hs
    simp only [pollInterval, Nat.max_eq_right]
    omega
  · intro s hs
    simp only [pollInterval]
    rw [Nat.max_eq_left]
    omega

/-- C9: invoking the cancellation handle clears the timer and emits nothing;
from a cleared-timer state no later event emits anything or re-arms the
timer (a tick already due fires no poll); and a running loop only ever
reaches the stopped state through the explicit cancel event. -/
theorem triggerCancel_stops :
    (∀ s : TriggerState, triggerStep s .cancel =
      ({ s with timerActive := false }, none)) ∧
    (∀ (s : TriggerState) (evs : List TriggerEvent), s.timerActive = false →
      (triggerRun s evs).2 = [] ∧ (triggerRun s evs).1.timerActive = false) ∧
    (∀ (s : TriggerState) (ev : TriggerEvent), s.timerActive = true →
      (triggerStep s ev).1.timerActive = false → ev = .cancel) := by
  refine ⟨fun s => rfl, ?_, ?_⟩
  · intro s evs
    induction evs generalizing s with
    | nil => intro hs; exact ⟨rfl, hs⟩
    | cons ev rest ih =>
      intro hs
      have hstep : triggerStep s ev = ((triggerStep s ev).1, (triggerStep s ev).2) := rfl
      have h1 : (triggerStep s ev).1.timerActive = false := by
        cases ev with
        | tick resp now => simp [triggerStep, hs]
        | cancel => simp [triggerStep]
      have h2 : (triggerStep s ev).2 = none := by
        cases ev with
        | tick resp now => simp [triggerStep, hs]
        | cancel => simp [triggerStep]
      have hrest := ih (triggerStep s ev).1 h1
      constructor
      · simp [triggerRun, h2, hrest.1]
      · simp [triggerRun, hrest.2]
  · intro s ev hs hstop
    cases ev with
    | tick resp now =>
      exfalso
      simp [triggerStep, hs] at hstop
    | cancel => rfl

/-- Unfolding: substituting in the empty string yields the empty string. -/
theorem substAux_nil (ctx : String → Option JSVal) : substAux ctx [] = [] := by
  rw [substAux]

/-- Unfolding: a match at the head is replaced and scanning continues after
the match. -/
theorem substAux_cons_some (ctx : String → Option JSVal) {c : Char}
    {rest w r : List Char} (h : tryMatch (c :: rest) = some (w, r)) :
    substAux ctx (c :: rest) =
      (substValue ctx (String.mk w)).data ++ substAux ctx r := by
  rw [substAux.eq_def]
  split
  · rename_i h'
    exact List.noConfusion h'
  · rename_i x c' rest' h'
    obtain ⟨rfl, rfl⟩ := List.cons.inj h'
    split
    · rename_i w' r' h''
      rw [h] at h''
      obtain ⟨h1, h2⟩ := Prod.mk.inj (Option.some.inj h'')
      rw [h1, h2]
    · rename_i h''
      rw [h] at h''
      exact Option.noConfusion h''

/-- Unfolding: with no match at the head, the head character is kept and
scanning moves one position right. -/
theorem substAux_cons_none (ctx : String → Option JSVal) {c : Char}
    {rest : List Char} (h : tryMatch (c :: rest) = none) :
    substAux ctx (c :: rest) = c :: substAux ctx rest := by
  rw [substAux.eq_def]
  split
  · rename_i h'
    exact List.noConfusion h'
  · rename_i x c' rest' h'
    obtain ⟨rfl, rfl⟩ := List.cons.inj h'
    split
    · rename_i w' r' h''
      rw [h] at h''
      exact Option.noConfusion h''
    · rfl

/-- No template match can start at a character other than an opening brace. -/
theorem tryMatch_cons_not_lbrace {c : Char} {cs : List Char}
    (h : c ≠ lbrace) : tryMatch (c :: cs) = none := by
  rcases cs with _ | ⟨b, _ | ⟨c1, _ | ⟨c2, _ | ⟨c3, _ | ⟨c4, _ | ⟨c5, rest⟩⟩⟩⟩⟩⟩ <;>
    simp [tryMatch, h]

/-- `takeWhile` passes over a prefix every element of which satisfies the
predicate. -/
theorem takeWhile_append_all {p : Char → Bool} :
    ∀ l₁ l₂ : List Char, (∀ c ∈ l₁, p c = true) →
    (l₁ ++ l₂).takeWhile p = l₁ ++ l₂.takeWhile p := by
  intro l₁
  induction l₁ with
  | nil => intro l₂ _; simp
  | cons a l ih =>
    intro l₂ h
    have ha : p a = true := h a (by simp)
    simp [List.takeWhile_cons, ha, ih l₂ (fun c hc => h c (by simp [hc]))]

/-- `dropWhile` drops a prefix every element of which satisfies the
predicate. -/
theorem dropWhile_append_all {p : Char → Bool} :
    ∀ l₁ l₂ : List Char, (∀ c ∈ l₁, p c = true) →
    (l₁ ++ l₂).dropWhile p = l₂.dropWhile p := by
  intro l₁
  induction l₁ with
  | nil => intro l₂ _; simp
  | cons a l ih =>
    intro l₂ h
    have ha : p a = true := h a (by simp)
    simp [List.dropWhile_cons, ha, ih l₂ (fun c hc => h c (by simp [hc]))]

/-- A closing brace is not a word character. -/
theorem isWordChar_rbrace : isWordChar rbrace = false := by decide

/-- A well-formed template occurrence (nonempty word-character key) matches
at its own head, capturing the key and leaving the suffix. -/
theorem tryMatch_template (key suf : List Char) (hk : key ≠ [])
    (hw : ∀ c ∈ key, isWordChar c = true) :
    tryMatch (templateChars key ++ suf) = some (key, suf) := by
  have htake : (key ++ rbrace :: rbrace :: suf).takeWhile isWordChar = key := by
    rw [takeWhile_append_all key _ hw]
    simp [List.takeWhile_cons, isWordChar_rbrace]
  have hdrop : (key ++ rbrace :: rbrace :: suf).dropWhile isWordChar =
      rbrace :: rbrace :: suf := by
    rw [dropWhile_append_all key _ hw]
    simp [List.dropWhile_cons, isWordChar_rbrace]
  have hne : key.isEmpty = false := by
    cases key with
    | nil => exact absurd rfl hk
    | cons a l => rfl
  simp only [templateChars, List.cons_append, List.append_assoc, List.nil_append]
  simp only [tryMatch]
  split
  · simp [htake, hdrop]
  · rename_i hguard
    exfalso
    apply hguard
    simp [htake, hdrop, hne]

/-- Scanning a string made of a brace-free prefix, one template occurrence,
and a suffix replaces exactly that occurrence and scans on in the suffix. -/
theorem substAux_template (ctx : String → Option JSVal) :
    ∀ pre key suf : List Char, (∀ c ∈ pre, c ≠ lbrace) → key ≠ [] →
    (∀ c ∈ key, isWordChar c = true) →
    substAux ctx (pre ++ templateChars key ++ suf) =
      pre ++ (substValue ctx (String.mk key)).data ++ substAux ctx suf := by
  intro pre
  induction pre with
  | nil =>
    intro key suf _ hk hw
    have hm := tryMatch_template key suf hk hw
    have hcons : templateChars key ++ suf =
        lbrace :: ((lbrace :: 'j' :: 's' :: 'o' :: 'n' :: '.' ::
          (key ++ [rbrace, rbrace])) ++ suf) := rfl
    rw [List.nil_append, List.nil_append, hcons]
    rw [hcons] at hm
    rw [substAux_cons_some ctx hm]
  | cons c pre ih =>
    intro key suf hpre hk hw
    have hc : c ≠ lbrace := hpre c (by simp)
    have hx : (c :: pre) ++ templateChars key ++ suf =
        c :: (pre ++ templateChars key ++ suf) := by simp
    have hnm : tryMatch (c :: (pre ++ templateChars key ++ suf)) = none :=
      tryMatch_cons_not_lbrace hc
    rw [hx, substAux_cons_none ctx hnm,
      ih key suf (fun x hxm => hpre x (by simp [hxm])) hk hw]
    simp

/-- When no position of the string starts a template match, scanning returns
the string unchanged. -/
theorem substAux_nomatch (ctx : String → Option JSVal) :
    ∀ cs : List Char, (∀ n, tryMatch (cs.drop n) = none) →
    substAux ctx cs = cs := by
  intro cs
  induction cs with
  | nil => intro _; exact substAux_nil ctx
  | cons c rest ih =>
    intro h
    have h0 : tryMatch (c :: rest) = none := by simpa using h 0
    rw [substAux_cons_none ctx h0]
    rw [ih (fun n => by simpa using h (n + 1))]

/-- C10: `resolveValue` returns non-strings and strings without two
consecutive opening braces unchanged; in a string it replaces each exact
occurrence of the template shape (two opening braces, `json.`, a nonempty
word-character key, two closing braces) with the context value for that key,
substituting the empty string when the key is absent or its value is falsy;
a string whose positions all fail to match is returned verbatim, so no other
placeholder shape is rewritten. -/
theorem resolveValue_template_spec :
    (∀ (ctx : String → Option JSVal) (v : JSVal), isStringV v = false →
      resolveValue v ctx = v) ∧
    (∀ (ctx : String → Option JSVal) (s : String), hasOpenBraces s.data = false →
      resolveValue (.str s) ctx = .str s) ∧
    (∀ (ctx : String → Option JSVal) (s : String), hasOpenBraces s.data = true →
      resolveValue (.str s) ctx = .str (String.mk (substAux ctx s.data))) ∧
    (∀ (ctx : String → Option JSVal) (pre key suf : List Char),
      (∀ c ∈ pre, c ≠ lbrace) → key ≠ [] → (∀ c ∈ key, isWordChar c = true) →
      substAux ctx (pre ++ templateChars key ++ suf) =
        pre ++ (substValue ctx (String.mk key)).data ++ substAux ctx suf) ∧
    (∀ (ctx : String → Option JSVal) (cs : List Char),
      (∀ n, tryMatch (cs.drop n) = none) → substAux ctx cs = cs) ∧
    (∀ (ctx : String → Option JSVal) (key : String), ctx key = none →
      substValue ctx key = "") ∧
    (∀ (ctx : String → Option JSVal) (key : String) (v : JSVal),
      ctx key = some v → truthyV v = false → substValue ctx key = "") := by
  refine ⟨?_, ?_, ?_, ?_, ?_, ?_, ?_⟩
  · intro ctx v h
    cases v with
    | str s => simp [isStringV] at h
    | num n => rfl
    | bool b => rfl
    | null => rfl
  · intro ctx s h
    simp [resolveValue, h]
  · intro ctx s h
    simp [resolveValue, h]
  · exact fun ctx => substAux_template ctx
  · exact fun ctx => substAux_nomatch ctx
  · intro ctx key h
    simp [substValue, h]
  · intro ctx key v h ht
    simp [substValue, h, ht]

/-- C1 witness: three straight 429s with `maxRetries = 2` give 3 attempts and
the classified failure; with `maxRetries = 3` and a success on attempt 2,
exactly 3 attempts and the body are returned. -/
theorem makeAirtableRequest_attempts_spec_witness :
    (makeAirtableRequest resp429 2 100).attempts = 3 ∧
    (makeAirtableRequest resp429 2 100).result =
      Sum.inr (classify ⟨some 429, "rate limited", none⟩) ∧
    (makeAirtableRequest respOkAfter2 3 100).attempts = 3 ∧
    (makeAirtableRequest respOkAfter2 3 100).result = Sum.inl 7 := by
  have h1 := (makeAirtableRequest_attempts_spec resp429 2 100).1
    (fun i _ => rfl)
  have h2 := (makeAirtableRequest_attempts_spec respOkAfter2 3 100).2 2 7
    (by omega) (fun i hi => by simp [respOkAfter2, is429, hi])
    (by simp [respOkAfter2])
  exact ⟨h1.1, h1.2 _ rfl, h2.1, h2.2⟩

/-- C2 witness: a 404 on the very first attempt gives exactly one attempt,
no backoff sleep, and the classified not-found failure. -/
theorem makeAirtableRequest_non429_terminal_witness :
    (makeAirtableRequest resp404 3 100).attempts = 1 ∧
    (makeAirtableRequest resp404 3 100).sleeps = [] ∧
    (makeAirtableRequest resp404 3 100).sleeps.length = 0 ∧
    (makeAirtableRequest resp404 3 100).result =
      Sum.inr (classify ⟨some 404, "Request failed with status code 404", none⟩) := by
  have h := makeAirtableRequest_non429_terminal resp404 3 100 0
    ⟨some 404, "Request failed with status code 404", none⟩
    (by omega) (fun i hi => absurd hi (by omega)) rfl (by decide)
  exact ⟨h.1, h.2.1, h.2.2.1, h.2.2.2⟩

/-- C3 witness: with `retryDelay = 100` and three straight 429s, the second
sleep is `100 * 2 ^ 1` and the total slept is within `100 * (2 ^ 2 - 1)`. -/
theorem makeAirtableRequest_backoff_delays_witness :
    (1 < (makeAirtableRequest resp429 2 100).sleeps.length) ∧
    (makeAirtableRequest resp429 2 100).sleeps.getD 1 0 = 100 * 2 ^ 1 ∧
    (makeAirtableRequest resp429 2 100).sleeps.sum ≤ 100 * (2 ^ 2 - 1) := by
  have hlen : 1 < (makeAirtableRequest resp429 2 100).sleeps.length := by decide
  exact ⟨hlen, (makeAirtableRequest_backoff_delays resp429 2 100).1 1 hlen,
    (makeAirtableRequest_backoff_delays resp429 2 100).2⟩

/-- C4 witness: against watermark 10, a response with creation times
9, 10, 11, 15 emits exactly the projections of the records at 11 and 15,
and a response containing only time 9 emits nothing. -/
theorem pollRecords_partition_witness :
    (pollRecords 10 (some pollOld) 20).2 = none ∧
    ([⟨"r3", "f3", 11⟩, ⟨"r4", "f4", 15⟩] : List Emitted) =
      (pollSample.filter (fun r => (10:Int) < r.createdTime)).map projectRecord := by
  exact ⟨(pollRecords_partition 10 20 pollOld).1.mpr (by decide),
    (pollRecords_partition 10 20 pollSample).2
      [⟨"r3", "f3", 11⟩, ⟨"r4", "f4", 15⟩] (by decide)⟩

/-- C6 witness: 5 configured seconds give 30000 ms; 10 s is floored to
30000 ms; 60 s passes through as 60000 ms. -/
theorem pollInterval_floor_witness :
    pollInterval 5 = 30000 ∧
    pollInterval 10 = 30000 ∧
    pollInterval 60 = 60 * 1000 := by
  exact ⟨pollInterval_floor.1, pollInterval_floor.2.2.1 10 (by omega),
    pollInterval_floor.2.2.2 60 (by omega)⟩

/-- C7 witness: a failing 404 run surfaces the last attempt's error
classified, and the taxonomy messages at concrete 401/403/404/422/transport
errors. -/
theorem makeAirtableRequest_error_classification_witness :
    (∃ e, resp404 ((makeAirtableRequest resp404 3 100).attempts - 1) =
        .fail e ∧
      "Resource not found. Check your base ID, table name, or record ID." =
        classify e) ∧
    classify ⟨some 401, "m", none⟩ =
      "Invalid Airtable credentials. Please check your token." ∧
    classify ⟨some 403, "m", none⟩ =
      "Access forbidden. Check your token permissions." ∧
    classify ⟨some 404, "m", none⟩ =
      "Resource not found. Check your base ID, table name, or record ID." ∧
    classify ⟨some 422, "m", some "Field missing"⟩ =
      "Invalid request: " ++ "Field missing" ∧
    classify ⟨some 422, "m", none⟩ = "Invalid request: Unknown error" ∧
    classify ⟨none, "ECONNREFUSED", none⟩ =
      "Airtable API error: " ++ "ECONNREFUSED" := by
  refine ⟨?_, ?_, ?_, ?_, ?_, ?_, ?_⟩
  · exact (makeAirtableRequest_error_classification resp404 3 100).1
      "Resource not found. Check your base ID, table name, or record ID." rfl
  · exact (makeAirtableRequest_error_classification resp404 3 100).2.1
      ⟨some 401, "m", none⟩ rfl
  · exact (makeAirtableRequest_error_classification resp404 3 100).2.2.1
      ⟨some 403, "m", none⟩ rfl
  · exact (makeAirtableRequest_error_classification resp404 3 100).2.2.2.1
      ⟨some 404, "m", none⟩ rfl
  · exact (makeAirtableRequest_error_classification resp404 3 100).2.2.2.2.1
      ⟨some 422, "m", some "Field missing"⟩ "Field missing" rfl rfl
  · exact (makeAirtableRequest_error_classification resp404 3 100).2.2.2.2.2.1
      ⟨some 422, "m", none⟩ rfl rfl
  · exact (makeAirtableRequest_error_classification resp404 3 100).2.2.2.2.2.2
      ⟨none, "ECONNREFUSED", none⟩ (by decide)

/-- C8 witness: PAT credentials get the `Bearer` prefix and use the access
token; legacy credentials send the raw API key. -/
theorem authHeader_spec_witness :
    authHeaderOf patCreds = "Bearer " ++ tokenOf patCreds ∧
    tokenOf patCreds = patCreds.accessToken ∧
    authHeaderOf legacyCreds = tokenOf legacyCreds ∧
    tokenOf legacyCreds = legacyCreds.apiKey := by
  exact ⟨(authHeader_spec patCreds).1 rfl,
    (authHeader_spec patCreds).2.2.1 (by decide),
    (authHeader_spec legacyCreds).2.1 (by decide),
    (authHeader_spec legacyCreds).2.2.2 rfl⟩

/-- C9 witness: from a cancelled state, two further due ticks (one with
records ready, one failing) emit nothing and never re-arm the timer, and a
running loop that a single event stops shows that event to be the cancel. -/
theorem triggerCancel_stops_witness :
    (triggerRun ⟨false, 0⟩
      [TriggerEvent.tick (some pollSample) 99, TriggerEvent.tick none 100]).2 = [] ∧
    (triggerRun ⟨false, 0⟩
      [TriggerEvent.tick (some pollSample) 99, TriggerEvent.tick none 100]).1.timerActive
      = false ∧
    TriggerEvent.cancel = TriggerEvent.cancel := by
  have h := triggerCancel_stops.2.1 ⟨false, 0⟩
    [TriggerEvent.tick (some pollSample) 99, TriggerEvent.tick none 100] rfl
  exact ⟨h.1, h.2, triggerCancel_stops.2.2 ⟨true, 0⟩ TriggerEvent.cancel rfl rfl⟩

/-- C10 witness: a number passes through unchanged; a brace-free string
passes through; a braced string goes through the scanner; one occurrence of
the `name` template is replaced with `Bob` amid literal text; the foreign
shape with `data.` instead of `json.` is left verbatim; absent keys and the
falsy value 0 substitute the empty string. -/
theorem resolveValue_template_spec_witness :
    resolveValue (.num 5) ctxEx = .num 5 ∧
    resolveValue (.str "plain text") ctxEx = .str "plain text" ∧
    resolveValue (.str "\x7b\x7bjson.name\x7d\x7d") ctxEx =
      .str (String.mk (substAux ctxEx ("\x7b\x7bjson.name\x7d\x7d").data)) ∧
    substAux ctxEx ("ID: ".data ++ templateChars ("name").data ++ "!".data) =
      "ID: ".data ++ (substValue ctxEx (String.mk ("name").data)).data ++
        substAux ctxEx "!".data ∧
    substAux ctxEx ("\x7b\x7bdata.x\x7d\x7d").data =
      ("\x7b\x7bdata.x\x7d\x7d").data ∧
    substValue ctxEx "missing" = "" ∧
    substValue ctxEx "count" = "" := by
  refine ⟨?_, ?_, ?_, ?_, ?_, ?_, ?_⟩
  · exact resolveValue_template_spec.1 ctxEx (.num 5) rfl
  · exact resolveValue_template_spec.2.1 ctxEx "plain text" (by decide)
  · exact resolveValue_template_spec.2.2.1 ctxEx "\x7b\x7bjson.name\x7d\x7d"
      (by decide)
  · exact resolveValue_template_spec.2.2.2.1 ctxEx "ID: ".data ("name").data
      "!".data (by decide) (by decide) (by decide)
  · refine resolveValue_template_spec.2.2.2.2.1 ctxEx
      ("\x7b\x7bdata.x\x7d\x7d").data ?_
    intro n
    by_cases hn : n < 10
    · interval_cases n <;> decide
    · rw [List.drop_eq_nil_of_le]
      · rfl
      · have hlen : ("\x7b\x7bdata.x\x7d\x7d").data.length = 10 := by decide
        omega
  · exact resolveValue_template_spec.2.2.2.2.2.1 ctxEx "missing" rfl
  · exact resolveValue_template_spec.2.2.2.2.2.2 ctxEx "count" (.num 0) rfl rfl
